import Mathlib

/-!
Shallow embedding of the playback-synchronization and status-polling core of
the ai-griot frontend: the two player components in
`src/components/EnhancedAudioPlayer.tsx` (the default `EnhancedAudioPlayer`
export and the `IllustratedTranscriptPlayer` component that follows it) and
the poller in `src/services/processingService.ts`.

Modelling conventions: JavaScript numbers used as playback timestamps become
rationals; JavaScript `Array.prototype.find` / `findIndex` become
`List.find?` / `List.findIdx?` with the `-1` sentinel made explicit;
optional (possibly `undefined`) fields become `Option`; React `useState`
cells become fields of an explicit state record, and an event handler
becomes a function from the old state to the new state together with
booleans recording which change notifications (state set + scroll /
callback) it emitted.
-/

namespace Griot

/-! Part 1: IllustratedTranscriptPlayer (second component in EnhancedAudioPlayer.tsx). -/

namespace ITP

/-- A transcript word with its timing range (interface `Word`). -/
structure Word where
  word : String
  start_time : ℚ
  end_time : ℚ
deriving DecidableEq

/-- Interface `TranscriptData`: `enhanced_text` is optional. -/
structure TranscriptData where
  text : String
  words : List Word
  confidence : ℚ
  enhanced_text : Option String
deriving DecidableEq

/-- Interface `Translation`: word-level timing is optional. -/
structure Translation where
  language : String
  text : String
  words : Option (List Word)
deriving DecidableEq

/-- Interface `Illustration` of `IllustratedTranscriptPlayer`; the untyped
`generation_metadata` record (an opaque JSON object never read by the
component logic) is not modelled. Note this interface has no `status`
field. -/
structure Illustration where
  id : String
  image_url : String
  prompt_used : Option String
  style : Option String
deriving DecidableEq

/-- Interface `Paragraph` of `IllustratedTranscriptPlayer`:
`start_time` / `end_time` / `word_count` are optional. -/
structure Paragraph where
  id : String
  sequence_order : Nat
  content : String
  start_time : Option ℚ
  end_time : Option ℚ
  word_count : Option Nat
  illustrations : List Illustration
deriving DecidableEq

/-- The predicate of the `findIndex` call over words in `handleTimeUpdate`:
`time >= word.start_time && time <= word.end_time` (both bounds
inclusive). -/
def wordActiveAt (time : ℚ) (w : Word) : Bool :=
  decide (w.start_time ≤ time) && decide (time ≤ w.end_time)

/-- The word lookup of `handleTimeUpdate`:
`currentTranscript.words.findIndex(word => time >= word.start_time && time <= word.end_time)`;
JavaScript `findIndex` returns the first matching index, or `-1`. -/
def findWordIndex (time : ℚ) (words : List Word) : Int :=
  match words.findIdx? (wordActiveAt time) with
  | some i => (i : Int)
  | none => -1

/-- The predicate of the `findIndex` call over paragraphs in
`handleTimeUpdate`: both timing fields must be defined (not `undefined`)
and `time >= paragraph.start_time && time <= paragraph.end_time`. -/
def paragraphActiveAt (time : ℚ) (p : Paragraph) : Bool :=
  match p.start_time, p.end_time with
  | some s, some e => decide (s ≤ time) && decide (time ≤ e)
  | _, _ => false

/-- The paragraph lookup of `handleTimeUpdate`, with the `-1` sentinel of
JavaScript `findIndex` made explicit. -/
def findParagraphIndex (time : ℚ) (paragraphs : List Paragraph) : Int :=
  match paragraphs.findIdx? (paragraphActiveAt time) with
  | some i => (i : Int)
  | none => -1

/-- The `useState` cells of `IllustratedTranscriptPlayer`. -/
structure PlayerState where
  isPlaying : Bool
  currentTime : ℚ
  duration : ℚ
  isMuted : Bool
  currentWordIndex : Int
  showTranscript : Bool
  showIllustrations : Bool
  selectedLanguage : String
  currentParagraphIndex : Int
deriving DecidableEq

/-- The initial values of the `useState` cells of
`IllustratedTranscriptPlayer`. -/
def initialPlayerState : PlayerState where
  isPlaying := false
  currentTime := 0
  duration := 0
  isMuted := false
  currentWordIndex := -1
  showTranscript := true
  showIllustrations := true
  selectedLanguage := "original"
  currentParagraphIndex := -1

/-- Function `getCurrentTranscript`: the transcript data for the selected language.
A translation found for the selected language is used only when it carries
`words` (in JavaScript, `translation && translation.words` — `undefined`
words are falsy, a present array, even empty, is truthy); otherwise the
original transcript is returned. -/
def getCurrentTranscript (transcript : TranscriptData) (translations : List Translation)
    (selectedLanguage : String) : TranscriptData :=
  if selectedLanguage = "original" then transcript
  else
    match translations.find? (fun t => t.language == selectedLanguage) with
    | some translation =>
      match translation.words with
      | some ws =>
        { text := translation.text
          words := ws
          confidence := transcript.confidence
          enhanced_text := some translation.text }
      | none => transcript
    | none => transcript

/-- The handler `handleTimeUpdate` of `IllustratedTranscriptPlayer`, as a transition on
the state record. Returns the new state together with two booleans: whether
the word highlight was updated (`setCurrentWordIndex` + scroll fired) and
whether the paragraph highlight was updated (`setCurrentParagraphIndex` +
scroll fired). `setCurrentTime(time)` happens unconditionally. -/
def handleTimeUpdate (transcriptWords : List Word) (paragraphs : List Paragraph)
    (st : PlayerState) (time : ℚ) : PlayerState × Bool × Bool :=
  let st0 := { st with currentTime := time }
  let wordIndex := findWordIndex time transcriptWords
  let stw :=
    if wordIndex ≠ st0.currentWordIndex then
      ({ st0 with currentWordIndex := wordIndex }, true)
    else (st0, false)
  let paragraphIndex := findParagraphIndex time paragraphs
  if paragraphIndex ≠ stw.1.currentParagraphIndex then
    ({ stw.1 with currentParagraphIndex := paragraphIndex }, stw.2, true)
  else (stw.1, stw.2, false)

/-- Repeated `timeupdate` events: fold `handleTimeUpdate` over a list of
timestamps, counting how many word-highlight and paragraph-highlight
change notifications fired. -/
def runTimeUpdates (transcriptWords : List Word) (paragraphs : List Paragraph) :
    PlayerState → List ℚ → PlayerState × Nat × Nat
  | st, [] => (st, 0, 0)
  | st, t :: ts =>
    let step := handleTimeUpdate transcriptWords paragraphs st t
    let rest := runTimeUpdates transcriptWords paragraphs step.1 ts
    (rest.1, (if step.2.1 then 1 else 0) + rest.2.1, (if step.2.2 then 1 else 0) + rest.2.2)

/-- The handler `handleEnded` of `IllustratedTranscriptPlayer`: stop playback, reset the
clock and clear both highlight indices. -/
def handleEnded (st : PlayerState) : PlayerState :=
  { st with
      isPlaying := false
      currentTime := 0
      currentWordIndex := -1
      currentParagraphIndex := -1 }

end ITP

/-! Part 2: EnhancedAudioPlayer (first component in EnhancedAudioPlayer.tsx). -/

namespace EAP

/-- The illustration entries of the `Paragraph` interface of
`EnhancedAudioPlayer` (all fields required, including `status`). -/
structure Illustration where
  id : String
  image_url : String
  prompt_used : String
  style : String
  status : String
  generation_time : ℚ
deriving DecidableEq

/-- Interface `Paragraph` of `EnhancedAudioPlayer` (timing fields
required). -/
structure Paragraph where
  id : String
  content : String
  start_time : ℚ
  end_time : ℚ
  sequence_order : Nat
  language : String
  word_count : Nat
  illustrations : List Illustration
deriving DecidableEq

/-- The lookup `findCurrentParagraph`:
`paragraphs.find(p => time >= p.start_time && time < p.end_time) || null` —
note the strict `<` on the end bound. -/
def findCurrentParagraph (time : ℚ) (paragraphs : List Paragraph) : Option Paragraph :=
  paragraphs.find? (fun p => decide (p.start_time ≤ time) && decide (time < p.end_time))

/-- The illustration chosen by `updateCurrentContent` for a newly active
paragraph: if the paragraph exists and has illustrations, the first entry
with status "generated" is looked up and
`activeIllustration?.image_url || null` is stored — in JavaScript the `||`
turns an empty-string `image_url` (falsy) into `null` as well as a missing
entry. -/
def illustrationFor (paragraph : Option Paragraph) : Option String :=
  match paragraph with
  | some p =>
    if 0 < p.illustrations.length then
      match p.illustrations.find? (fun ill => ill.status == "generated") with
      | some activeIllustration =>
        if activeIllustration.image_url = "" then none
        else some activeIllustration.image_url
      | none => none
    else none
  | none => none

/-- The `useState` cells of `EnhancedAudioPlayer` read and written by
`updateCurrentContent`. -/
structure ContentState where
  currentParagraph : Option Paragraph
  currentIllustration : Option String
deriving DecidableEq

/-- The handler `updateCurrentContent`: recompute the active paragraph and, when it
differs from the stored one, store it, fire `onParagraphChange` and swap
the illustration. The boolean records whether that change notification
fired. -/
def updateCurrentContent (paragraphs : List Paragraph) (st : ContentState) (time : ℚ) :
    ContentState × Bool :=
  let paragraph := findCurrentParagraph time paragraphs
  if paragraph ≠ st.currentParagraph then
    ({ currentParagraph := paragraph, currentIllustration := illustrationFor paragraph }, true)
  else (st, false)

end EAP

/-! Part 3: the processing status poller (services/processingService.ts). -/

namespace Poller

/-- Interface `ProcessingStatusResponse` of `processingService.ts`:
`error` and `transcript_text` are optional. -/
structure ProcessingStatusResponse where
  story_id : String
  current_step : String
  progress_percentage : Nat
  message : String
  error : Option String
  transcript_text : Option String
  created_at : String
deriving DecidableEq

/-- Outcome of one awaited `getProcessingStatus` call: a parsed response, or
a transport/parse rejection (the `catch` branch of `poll`). -/
inductive PollAttempt where
  | ok (status : ProcessingStatusResponse)
  | err
deriving DecidableEq

/-- Observable actions of one `pollProcessingStatus` invocation, in order:
callback invocations and `setTimeout` scheduling (with its delay in
milliseconds). -/
inductive PollEvent where
  | update (status : ProcessingStatusResponse)
  | complete (status : ProcessingStatusResponse)
  | error (message : String)
  | schedule (delayMs : Nat)
deriving DecidableEq

/-- The argument passed to `onError` on a `failed` step:
`status.error` with the default `Processing failed` substituted by the `||` operator
both for a missing `error` and for an empty (falsy) one. -/
def errorMessageOf (status : ProcessingStatusResponse) : String :=
  match status.error with
  | some e => if e = "" then "Processing failed" else e
  | none => "Processing failed"

/-- The inner `poll` closure of `pollProcessingStatus`, unrolled over the
sequence of attempt outcomes (`responses n` is what the `n`-th awaited
`getProcessingStatus` call produces). On a successful attempt `onUpdate`
fires first, then the terminal checks, then the retry guard; on a rejected
attempt the retry guard runs with the doubled delay. The events of the
whole run are concatenated in execution order. -/
def pollFrom (responses : Nat → PollAttempt) (pollInterval maxRetries : Nat)
    (retryCount attempt : Nat) : List PollEvent :=
  match responses attempt with
  | .ok status =>
    PollEvent.update status ::
      (if status.current_step = "published" then
        [PollEvent.complete status]
      else if status.current_step = "failed" then
        [PollEvent.error (errorMessageOf status)]
      else if h : retryCount < maxRetries then
        PollEvent.schedule pollInterval ::
          pollFrom responses pollInterval maxRetries (retryCount + 1) (attempt + 1)
      else
        [PollEvent.error "Processing timeout - please check back later"])
  | .err =>
    if h : retryCount < maxRetries then
      PollEvent.schedule (pollInterval * 2) ::
        pollFrom responses pollInterval maxRetries (retryCount + 1) (attempt + 1)
    else
      [PollEvent.error "Failed to check processing status"]
termination_by maxRetries - retryCount
decreasing_by all_goals omega

/-- The entry point `pollProcessingStatus`: `retryCount` starts at `0` and `poll()` is
invoked immediately (defaults in the source: `pollInterval = 3000`,
`maxRetries = 100`). -/
def pollProcessingStatus (responses : Nat → PollAttempt)
    (pollInterval maxRetries : Nat) : List PollEvent :=
  pollFrom responses pollInterval maxRetries 0 0

/-- The statuses passed to `onUpdate`, in order. -/
def updatesOf (events : List PollEvent) : List ProcessingStatusResponse :=
  events.filterMap fun e =>
    match e with
    | .update s => some s
    | _ => none

/-- The statuses passed to `onComplete`, in order. -/
def completesOf (events : List PollEvent) : List ProcessingStatusResponse :=
  events.filterMap fun e =>
    match e with
    | .complete s => some s
    | _ => none

/-- The messages passed to `onError`, in order. -/
def errorsOf (events : List PollEvent) : List String :=
  events.filterMap fun e =>
    match e with
    | .error m => some m
    | _ => none

/-- The `setTimeout` delays scheduled, in order. -/
def schedulesOf (events : List PollEvent) : List Nat :=
  events.filterMap fun e =>
    match e with
    | .schedule d => some d
    | _ => none

/-- A terminal callback invocation (`onComplete` or `onError`). -/
def isTerminalEvent : PollEvent → Bool
  | .complete _ => true
  | .error _ => true
  | _ => false

/-! Step equations for `pollFrom`, one per control-flow branch of `poll`. -/

theorem pollFrom_published {responses : Nat → PollAttempt} {pollInterval maxRetries : Nat}
    {retryCount attempt : Nat} {status : ProcessingStatusResponse}
    (hres : responses attempt = .ok status) (hstep : status.current_step = "published") :
    pollFrom responses pollInterval maxRetries retryCount attempt =
      [PollEvent.update status, PollEvent.complete status] := by
  rw [pollFrom, hres]
  simp [hstep]

theorem pollFrom_failed {responses : Nat → PollAttempt} {pollInterval maxRetries : Nat}
    {retryCount attempt : Nat} {status : ProcessingStatusResponse}
    (hres : responses attempt = .ok status) (hstep : status.current_step = "failed") :
    pollFrom responses pollInterval maxRetries retryCount attempt =
      [PollEvent.update status, PollEvent.error (errorMessageOf status)] := by
  rw [pollFrom, hres]
  have : status.current_step ≠ "published" := by rw [hstep]; decide
  simp [hstep, this]

theorem pollFrom_continue {responses : Nat → PollAttempt} {pollInterval maxRetries : Nat}
    {retryCount attempt : Nat} {status : ProcessingStatusResponse}
    (hres : responses attempt = .ok status)
    (hp : status.current_step ≠ "published") (hf : status.current_step ≠ "failed")
    (hr : retryCount < maxRetries) :
    pollFrom responses pollInterval maxRetries retryCount attempt =
      PollEvent.update status :: PollEvent.schedule pollInterval ::
        pollFrom responses pollInterval maxRetries (retryCount + 1) (attempt + 1) := by
  rw [pollFrom, hres]
  simp [hp, hf, hr]

theorem pollFrom_timeout {responses : Nat → PollAttempt} {pollInterval maxRetries : Nat}
    {retryCount attempt : Nat} {status : ProcessingStatusResponse}
    (hres : responses attempt = .ok status)
    (hp : status.current_step ≠ "published") (hf : status.current_step ≠ "failed")
    (hr : ¬ retryCount < maxRetries) :
    pollFrom responses pollInterval maxRetries retryCount attempt =
      [PollEvent.update status,
       PollEvent.error "Processing timeout - please check back later"] := by
  rw [pollFrom, hres]
  simp [hp, hf, hr]

theorem pollFrom_err_retry {responses : Nat → PollAttempt} {pollInterval maxRetries : Nat}
    {retryCount attempt : Nat}
    (hres : responses attempt = .err) (hr : retryCount < maxRetries) :
    pollFrom responses pollInterval maxRetries retryCount attempt =
      PollEvent.schedule (pollInterval * 2) ::
        pollFrom responses pollInterval maxRetries (retryCount + 1) (attempt + 1) := by
  rw [pollFrom, hres]
  simp [hr]

theorem pollFrom_err_exhausted {responses : Nat → PollAttempt} {pollInterval maxRetries : Nat}
    {retryCount attempt : Nat}
    (hres : responses attempt = .err) (hr : ¬ retryCount < maxRetries) :
    pollFrom responses pollInterval maxRetries retryCount attempt =
      [PollEvent.error "Failed to check processing status"] := by
  rw [pollFrom, hres]
  simp [hr]

/-! Concrete poll scenarios used by the specification. -/

/-- A non-terminal `uploading` response at 10%. -/
def uploadingStatus : ProcessingStatusResponse :=
  ⟨"story-1", "uploading", 10, "Uploading audio", none, none, "2024-01-01T00:00:00Z"⟩

/-- A non-terminal `transcribing` response at 30%. -/
def transcribingStatus : ProcessingStatusResponse :=
  ⟨"story-1", "transcribing", 30, "Transcribing audio", none, none, "2024-01-01T00:00:01Z"⟩

/-- A terminal `published` response at 100%. -/
def publishedStatus : ProcessingStatusResponse :=
  ⟨"story-1", "published", 100, "Story published", none, none, "2024-01-01T00:00:02Z"⟩

/-- A terminal `failed` response carrying the error `audio too short`. -/
def failedStatus : ProcessingStatusResponse :=
  ⟨"story-1", "failed", 10, "Processing failed", some "audio too short", none,
    "2024-01-01T00:00:01Z"⟩

/-- Scenario: `uploading`, then `transcribing`, then `published`. -/
def happyResponses : Nat → PollAttempt
  | 0 => .ok uploadingStatus
  | 1 => .ok transcribingStatus
  | _ => .ok publishedStatus

/-- Scenario: `failed` with `error: "audio too short"` on the first poll. -/
def failFirstResponses : Nat → PollAttempt
  | _ => .ok failedStatus

/-- Scenario: one transient transport failure, then `published`. -/
def transientResponses : Nat → PollAttempt
  | 0 => .err
  | _ => .ok publishedStatus

/-- Every run of the polling loop ends in exactly one terminal callback:
the event list is some non-terminal prefix followed by a single
`onComplete`/`onError` event. Proved by induction on the remaining retry
budget. -/
theorem pollFrom_one_terminal (responses : Nat → PollAttempt) (pollInterval maxRetries : Nat) :
    ∀ (fuel retryCount attempt : Nat), maxRetries - retryCount ≤ fuel →
      ∃ pre e,
        pollFrom responses pollInterval maxRetries retryCount attempt = pre ++ [e] ∧
        isTerminalEvent e = true ∧ ∀ x ∈ pre, isTerminalEvent x = false := by
  intro fuel
  induction fuel with
  | zero =>
    intro rc a h
    have hr : ¬ rc < maxRetries := by omega
    cases hres : responses a with
    | ok status =>
      by_cases hp : status.current_step = "published"
      · exact ⟨[PollEvent.update status], PollEvent.complete status,
          pollFrom_published hres hp, rfl, by simp [isTerminalEvent]⟩
      · by_cases hf : status.current_step = "failed"
        · exact ⟨[PollEvent.update status], PollEvent.error (errorMessageOf status),
            pollFrom_failed hres hf, rfl, by simp [isTerminalEvent]⟩
        · exact ⟨[PollEvent.update status],
            PollEvent.error "Processing timeout - please check back later",
            pollFrom_timeout hres hp hf hr, rfl, by simp [isTerminalEvent]⟩
    | err =>
      exact ⟨[], PollEvent.error "Failed to check processing status",
        pollFrom_err_exhausted hres hr, rfl, by simp⟩
  | succ n ih =>
    intro rc a h
    cases hres : responses a with
    | ok status =>
      by_cases hp : status.current_step = "published"
      · exact ⟨[PollEvent.update status], PollEvent.complete status,
          pollFrom_published hres hp, rfl, by simp [isTerminalEvent]⟩
      · by_cases hf : status.current_step = "failed"
        · exact ⟨[PollEvent.update status], PollEvent.error (errorMessageOf status),
            pollFrom_failed hres hf, rfl, by simp [isTerminalEvent]⟩
        · by_cases hr : rc < maxRetries
          · obtain ⟨pre, e, heq, hterm, hpre⟩ := ih (rc + 1) (a + 1) (by omega)
            refine ⟨PollEvent.update status :: PollEvent.schedule pollInterval :: pre, e,
              ?_, hterm, ?_⟩
            · rw [pollFrom_continue hres hp hf hr, heq]
              rfl
            · intro x hx
              simp only [List.mem_cons] at hx
              rcases hx with rfl | rfl | hx
              · simp [isTerminalEvent]
              · simp [isTerminalEvent]
              · exact hpre x hx
          · exact ⟨[PollEvent.update status],
              PollEvent.error "Processing timeout - please check back later",
              pollFrom_timeout hres hp hf hr, rfl, by simp [isTerminalEvent]⟩
    | err =>
      by_cases hr : rc < maxRetries
      · obtain ⟨pre, e, heq, hterm, hpre⟩ := ih (rc + 1) (a + 1) (by omega)
        refine ⟨PollEvent.schedule (pollInterval * 2) :: pre, e, ?_, hterm, ?_⟩
        · rw [pollFrom_err_retry hres hr, heq]
          rfl
        · intro x hx
          simp only [List.mem_cons] at hx
          rcases hx with rfl | hx
          · simp [isTerminalEvent]
          · exact hpre x hx
      · exact ⟨[], PollEvent.error "Failed to check processing status",
          pollFrom_err_exhausted hres hr, rfl, by simp⟩

/-- The event trace of the `uploading → transcribing → published`
scenario with the default configuration. -/
theorem happyTrace_eq :
    pollProcessingStatus happyResponses 3000 100 =
      [PollEvent.update uploadingStatus, PollEvent.schedule 3000,
       PollEvent.update transcribingStatus, PollEvent.schedule 3000,
       PollEvent.update publishedStatus, PollEvent.complete publishedStatus] := by
  rw [pollProcessingStatus,
      pollFrom_continue (show happyResponses 0 = PollAttempt.ok uploadingStatus from rfl)
        (by decide) (by decide) (by omega),
      pollFrom_continue (show happyResponses 1 = PollAttempt.ok transcribingStatus from rfl)
        (by decide) (by decide) (by omega),
      pollFrom_published (show happyResponses 2 = PollAttempt.ok publishedStatus from rfl)
        (by decide)]

/-- The event trace of the `failed` first-poll scenario with the default
configuration. -/
theorem failFirstTrace_eq :
    pollProcessingStatus failFirstResponses 3000 100 =
      [PollEvent.update failedStatus, PollEvent.error "audio too short"] := by
  rw [pollProcessingStatus,
      pollFrom_failed (show failFirstResponses 0 = PollAttempt.ok failedStatus from rfl)
        (by decide)]
  decide

/-- The event trace of the transient-failure-then-published scenario with
the default configuration. -/
theorem transientTrace_eq :
    pollProcessingStatus transientResponses 3000 100 =
      [PollEvent.schedule 6000, PollEvent.update publishedStatus,
       PollEvent.complete publishedStatus] := by
  rw [pollProcessingStatus,
      pollFrom_err_retry (show transientResponses 0 = PollAttempt.err from rfl) (by omega),
      pollFrom_published (show transientResponses 1 = PollAttempt.ok publishedStatus from rfl)
        (by decide)]

/-- The timeout scenario with budget `maxRetries = 3`: every poll succeeds
with the same non-terminal status, so the loop runs the first poll plus
three scheduled follow-ups and then reports the timeout. -/
theorem timeoutTrace_eq (status : ProcessingStatusResponse) (pollInterval : Nat)
    (hp : status.current_step ≠ "published") (hf : status.current_step ≠ "failed") :
    pollProcessingStatus (fun _ => .ok status) pollInterval 3 =
      [PollEvent.update status, PollEvent.schedule pollInterval,
       PollEvent.update status, PollEvent.schedule pollInterval,
       PollEvent.update status, PollEvent.schedule pollInterval,
       PollEvent.update status,
       PollEvent.error "Processing timeout - please check back later"] := by
  rw [pollProcessingStatus,
      pollFrom_continue rfl hp hf (by omega),
      pollFrom_continue rfl hp hf (by omega),
      pollFrom_continue rfl hp hf (by omega),
      pollFrom_timeout rfl hp hf (by omega)]

end Poller

end Griot

namespace Griot

open Poller

/-- Claim C3 is false on the code: `onUpdate` fires on every successful
poll, including terminal ones, because `poll` calls `onUpdate(status)`
before checking `current_step`. The `uploading → transcribing → published`
scenario yields three `onUpdate` calls, not the claimed two, and the
first-poll `failed` scenario yields one `onUpdate` call, not the claimed
zero. -/
theorem pollUpdate_on_terminal_cex :
    (updatesOf (pollProcessingStatus happyResponses 3000 100)).length = 3 ∧
    ¬ (updatesOf (pollProcessingStatus happyResponses 3000 100)).length = 2 ∧
    updatesOf (pollProcessingStatus failFirstResponses 3000 100) = [failedStatus] ∧
    ¬ updatesOf (pollProcessingStatus failFirstResponses 3000 100) = [] := by
  rw [happyTrace_eq, failFirstTrace_eq]
  refine ⟨rfl, by decide, rfl, by decide⟩

/-- Claim C3 (amended): `pollProcessingStatus` invokes `onUpdate` exactly
once per successful poll, terminal or not — the trace of a successful
attempt starts with the `onUpdate` event, and a transport-error attempt
produces no `onUpdate` for that attempt. The
`uploading → transcribing → published` scenario therefore produces exactly
three `onUpdate` calls (one per poll, the last with the `published`
status), one `onComplete` call with the final status and zero `onError`
calls; the first-poll `failed` scenario produces one `onUpdate` call and
one `onError` call with message `audio too short`. -/
theorem pollProcessingStatus_update_per_poll :
    (∀ (responses : Nat → PollAttempt) (pollInterval maxRetries retryCount attempt : Nat)
        (status : ProcessingStatusResponse),
        responses attempt = .ok status →
        (pollFrom responses pollInterval maxRetries retryCount attempt).head? =
          some (PollEvent.update status)) ∧
    (∀ (responses : Nat → PollAttempt) (pollInterval maxRetries retryCount attempt : Nat),
        responses attempt = .err →
        (pollFrom responses pollInterval maxRetries retryCount attempt).head? =
            some (PollEvent.schedule (pollInterval * 2)) ∨
          pollFrom responses pollInterval maxRetries retryCount attempt =
            [PollEvent.error "Failed to check processing status"]) ∧
    updatesOf (pollProcessingStatus happyResponses 3000 100) =
      [uploadingStatus, transcribingStatus, publishedStatus] ∧
    completesOf (pollProcessingStatus happyResponses 3000 100) = [publishedStatus] ∧
    errorsOf (pollProcessingStatus happyResponses 3000 100) = [] ∧
    updatesOf (pollProcessingStatus failFirstResponses 3000 100) = [failedStatus] ∧
    errorsOf (pollProcessingStatus failFirstResponses 3000 100) = ["audio too short"] ∧
    completesOf (pollProcessingStatus failFirstResponses 3000 100) = [] := by
  refine ⟨?_, ?_, ?_, ?_, ?_, ?_, ?_, ?_⟩
  · intro responses pollInterval maxRetries retryCount attempt status hres
    by_cases hp : status.current_step = "published"
    · rw [pollFrom_published hres hp]; rfl
    · by_cases hf : status.current_step = "failed"
      · rw [pollFrom_failed hres hf]; rfl
      · by_cases hr : retryCount < maxRetries
        · rw [pollFrom_continue hres hp hf hr]; rfl
        · rw [pollFrom_timeout hres hp hf hr]; rfl
  · intro responses pollInterval maxRetries retryCount attempt hres
    by_cases hr : retryCount < maxRetries
    · left; rw [pollFrom_err_retry hres hr]; rfl
    · right; exact pollFrom_err_exhausted hres hr
  · rw [happyTrace_eq]; rfl
  · rw [happyTrace_eq]; rfl
  · rw [happyTrace_eq]; rfl
  · rw [failFirstTrace_eq]; rfl
  · rw [failFirstTrace_eq]; rfl
  · rw [failFirstTrace_eq]; rfl

/-- Witness for the amended claim C3 at a concrete input: the first event
of the happy-scenario trace is the `onUpdate` with the `uploading`
status. -/
theorem pollProcessingStatus_update_per_poll_witness :
    (pollFrom happyResponses 3000 100 0 0).head? =
      some (PollEvent.update uploadingStatus) :=
  pollProcessingStatus_update_per_poll.1 happyResponses 3000 100 0 0 uploadingStatus rfl

/-- Claim C4: every invocation of `pollProcessingStatus`, whatever the
sequence of poll outcomes and the configuration, fires exactly one
terminal callback (`onComplete` or `onError`, never both), it is the last
observable action of the run, and no poll is scheduled after it. -/
theorem pollProcessingStatus_one_terminal
    (responses : Nat → PollAttempt) (pollInterval maxRetries : Nat) :
    ∃ pre e,
      pollProcessingStatus responses pollInterval maxRetries = pre ++ [e] ∧
      isTerminalEvent e = true ∧
      (∀ x ∈ pre, isTerminalEvent x = false) ∧
      ((pollProcessingStatus responses pollInterval maxRetries).filter
          isTerminalEvent).length = 1 := by
  obtain ⟨pre, e, heq, hterm, hpre⟩ :=
    pollFrom_one_terminal responses pollInterval maxRetries maxRetries 0 0 (by omega)
  refine ⟨pre, e, ?_, hterm, hpre, ?_⟩
  · rw [pollProcessingStatus]
    exact heq
  rw [pollProcessingStatus, heq, List.filter_append]
  have hnil : pre.filter isTerminalEvent = [] := by
    rw [List.filter_eq_nil_iff]
    intro a ha
    simp [hpre a ha]
  rw [hnil]
  simp [hterm]

/-- Claim C5: a transport error on a poll attempt with retry budget left
does not invoke `onError`; it consumes one unit of the budget
(`retryCount + 1`) and reschedules after twice the normal interval. In the
scenario of one transient failure followed by a `published` response, only
the single `onComplete` fires, `onError` never, and the one backoff delay
is `3000 * 2`. -/
theorem pollProcessingStatus_transient_retry :
    (∀ (responses : Nat → PollAttempt) (pollInterval maxRetries retryCount attempt : Nat),
        responses attempt = .err → retryCount < maxRetries →
        pollFrom responses pollInterval maxRetries retryCount attempt =
          PollEvent.schedule (pollInterval * 2) ::
            pollFrom responses pollInterval maxRetries (retryCount + 1) (attempt + 1)) ∧
    errorsOf (pollProcessingStatus transientResponses 3000 100) = [] ∧
    completesOf (pollProcessingStatus transientResponses 3000 100) = [publishedStatus] ∧
    schedulesOf (pollProcessingStatus transientResponses 3000 100) = [3000 * 2] := by
  refine ⟨?_, ?_, ?_, ?_⟩
  · intro responses pollInterval maxRetries retryCount attempt hres hr
    exact pollFrom_err_retry hres hr
  · rw [transientTrace_eq]; rfl
  · rw [transientTrace_eq]; rfl
  · rw [transientTrace_eq]; rfl

/-- Witness for claim C5 at a concrete input: the transient-failure
scenario with budget left takes the doubled-backoff step. -/
theorem pollProcessingStatus_transient_retry_witness :
    pollFrom transientResponses 3000 100 0 0 =
      PollEvent.schedule (3000 * 2) :: pollFrom transientResponses 3000 100 1 1 :=
  pollProcessingStatus_transient_retry.1 transientResponses 3000 100 0 0 rfl (by omega)

/-- Claim C6: with `maxRetries = 3` and every poll answering the same
non-terminal step, the loop schedules exactly three follow-up polls, then
`onError` fires exactly once with the timeout message
`Processing timeout - please check back later`, as the last action of the
run; that message differs from the hard-failure default and from the
transport-exhaustion message. -/
theorem pollProcessingStatus_timeout_after_budget
    (status : ProcessingStatusResponse) (pollInterval : Nat)
    (hp : status.current_step ≠ "published") (hf : status.current_step ≠ "failed") :
    schedulesOf (pollProcessingStatus (fun _ => .ok status) pollInterval 3) =
      [pollInterval, pollInterval, pollInterval] ∧
    errorsOf (pollProcessingStatus (fun _ => .ok status) pollInterval 3) =
      ["Processing timeout - please check back later"] ∧
    completesOf (pollProcessingStatus (fun _ => .ok status) pollInterval 3) = [] ∧
    (pollProcessingStatus (fun _ => .ok status) pollInterval 3).getLast? =
      some (PollEvent.error "Processing timeout - please check back later") ∧
    (∀ s : ProcessingStatusResponse, s.error = none →
      errorMessageOf s ≠ "Processing timeout - please check back later") ∧
    "Processing timeout - please check back later" ≠ "Failed to check processing status" := by
  rw [timeoutTrace_eq status pollInterval hp hf]
  refine ⟨rfl, rfl, rfl, rfl, ?_, by decide⟩
  intro s hs
  rw [errorMessageOf, hs]
  decide

/-- Witness for claim C6 at a concrete input: the `transcribing` status
polled forever against a budget of 3. -/
theorem pollProcessingStatus_timeout_after_budget_witness :
    errorsOf (pollProcessingStatus (fun _ => .ok transcribingStatus) 3000 3) =
      ["Processing timeout - please check back later"] :=
  (pollProcessingStatus_timeout_after_budget transcribingStatus 3000
    (by decide) (by decide)).2.1

/-! Part 4: synchronization-engine lemmas and claims. -/

/-- `List.find?` returns the element at the first position satisfying the
predicate. -/
theorem find?_first {α : Type} (p : α → Bool) :
    ∀ (l : List α) (k : Nat) (hk : k < l.length),
      p (l.get ⟨k, hk⟩) = true →
      (∀ (j : Nat) (hj : j < k), p (l.get ⟨j, Nat.lt_trans hj hk⟩) = false) →
      l.find? p = some (l.get ⟨k, hk⟩) := by
  intro l
  induction l with
  | nil => intro k hk; exact absurd hk (by simp)
  | cons a l ih =>
    intro k hk hp hmin
    cases k with
    | zero => exact List.find?_cons_of_pos l hp
    | succ k =>
      have ha : p a = false := hmin 0 (Nat.succ_pos k)
      rw [List.find?_cons_of_neg l (by simp [ha])]
      exact ih k (by simpa using hk) hp fun j hj => hmin (j + 1) (by omega)

/-- The word predicate of `handleTimeUpdate` holds exactly on the inclusive
range `[start_time, end_time]`. -/
theorem wordActiveAt_iff {t : ℚ} {w : ITP.Word} :
    ITP.wordActiveAt t w = true ↔ w.start_time ≤ t ∧ t ≤ w.end_time := by
  simp [ITP.wordActiveAt]

/-- The paragraph predicate of `handleTimeUpdate` holds exactly when both
timing fields are present and the time lies in the inclusive range. -/
theorem paragraphActiveAt_iff {t : ℚ} {p : ITP.Paragraph} :
    ITP.paragraphActiveAt t p = true ↔
      ∃ s e, p.start_time = some s ∧ p.end_time = some e ∧ s ≤ t ∧ t ≤ e := by
  cases hs : p.start_time with
  | none => simp [ITP.paragraphActiveAt, hs]
  | some s =>
    cases he : p.end_time with
    | none => simp [ITP.paragraphActiveAt, hs, he]
    | some e => simp [ITP.paragraphActiveAt, hs, he]

/-- Claim C1: the active-word lookup of `handleTimeUpdate` returns the
index of the first word whose inclusive range `[start_time, end_time]`
contains `currentTime` (first match in sequence order when ranges
overlap), the sentinel `-1` when no word range contains it, and on a
sorted non-overlapping word list the index of any word containing
`currentTime`. -/
theorem locateActiveWord_contract (t : ℚ) (ws : List ITP.Word) :
    ((∀ w ∈ ws, ¬ (w.start_time ≤ t ∧ t ≤ w.end_time)) → ITP.findWordIndex t ws = -1) ∧
    (∀ (i : Nat) (hi : i < ws.length),
      ws[i].start_time ≤ t → t ≤ ws[i].end_time →
      (∀ (j : Nat) (hj : j < i), ¬ (ws[j].start_time ≤ t ∧ t ≤ ws[j].end_time)) →
      ITP.findWordIndex t ws = i) ∧
    (List.Pairwise (fun a b => a.end_time < b.start_time) ws →
      ∀ (i : Nat) (hi : i < ws.length),
        ws[i].start_time ≤ t → t ≤ ws[i].end_time →
        ITP.findWordIndex t ws = i) := by
  have first : ∀ (i : Nat) (hi : i < ws.length),
      ws[i].start_time ≤ t → t ≤ ws[i].end_time →
      (∀ (j : Nat) (hj : j < i), ¬ (ws[j].start_time ≤ t ∧ t ≤ ws[j].end_time)) →
      ITP.findWordIndex t ws = i := by
    intro i hi h1 h2 hmin
    have hidx : ws.findIdx? (ITP.wordActiveAt t) = some i := by
      rw [List.findIdx?_eq_some_iff_getElem]
      refine ⟨hi, wordActiveAt_iff.mpr ⟨h1, h2⟩, ?_⟩
      intro j hj
      simp only [Bool.not_eq_true]
      rw [← Bool.not_eq_true, wordActiveAt_iff]
      exact hmin j hj
    rw [ITP.findWordIndex, hidx]
  refine ⟨?_, first, ?_⟩
  · intro hmiss
    have hidx : ws.findIdx? (ITP.wordActiveAt t) = none := by
      rw [List.findIdx?_eq_none_iff]
      intro w hw
      rw [← Bool.not_eq_true, wordActiveAt_iff]
      exact hmiss w hw
    rw [ITP.findWordIndex, hidx]
  · intro hsorted i hi h1 h2
    refine first i hi h1 h2 ?_
    intro j hj hcontra
    have hlt : ws[j].end_time < ws[i].start_time :=
      List.pairwise_iff_getElem.mp hsorted j i (by omega) hi hj
    exact absurd (le_trans h1 hcontra.2) (not_le.mpr hlt)

/-- A word list for the witness: two non-overlapping words sorted by start
time. -/
def helloWord : ITP.Word := ⟨"hello", 0, 1⟩

/-- Second word of the witness list. -/
def worldWord : ITP.Word := ⟨"world", 2, 3⟩

/-- Witness for claim C1 at concrete inputs: time 1 (the inclusive end of
the first word) selects index 0, and time 3/2 (in the gap) yields the
sentinel. -/
theorem locateActiveWord_contract_witness :
    ITP.findWordIndex 1 [helloWord, worldWord] = 0 ∧
    ITP.findWordIndex (3/2) [helloWord, worldWord] = -1 := by
  constructor
  · exact (locateActiveWord_contract 1 [helloWord, worldWord]).2.2
      (by norm_num [List.pairwise_cons, helloWord, worldWord]) 0 (by decide)
      (by norm_num [helloWord]) (by norm_num [helloWord])
  · refine (locateActiveWord_contract (3/2) [helloWord, worldWord]).1 ?_
    intro w hw
    simp only [List.mem_cons, List.not_mem_nil, or_false] at hw
    rcases hw with rfl | rfl <;> norm_num [helloWord, worldWord]

/-- A concrete `EnhancedAudioPlayer` paragraph spanning `[0, 10]`. -/
def spanParagraph : EAP.Paragraph :=
  ⟨"p-1", "Once upon a time", 0, 10, 0, "en", 4, []⟩

/-- Claim C2 is false on the code: the claim makes the paragraph lookup
follow the word-lookup contract with both bounds inclusive, but
`findCurrentParagraph` in `EnhancedAudioPlayer` tests
`time < p.end_time`, so at `currentTime = end_time = 10` a paragraph whose
inclusive range contains 10 is not selected. -/
theorem findCurrentParagraph_end_exclusive_cex :
    EAP.findCurrentParagraph 10 [spanParagraph] = none ∧
    spanParagraph.start_time ≤ 10 ∧ (10 : ℚ) ≤ spanParagraph.end_time := by
  refine ⟨by decide, by norm_num [spanParagraph], by norm_num [spanParagraph]⟩

/-- Claim C2 (amended): the paragraph lookup of
`IllustratedTranscriptPlayer.handleTimeUpdate` follows the word-lookup
contract — it returns the index of the first paragraph with both timing
fields present whose inclusive range `[start_time, end_time]` contains
`currentTime`, the sentinel `-1` when there is none, and a paragraph whose
`start_time` or `end_time` is missing is never the selected one; the
lookup `findCurrentParagraph` of `EnhancedAudioPlayer`, however, uses an
exclusive end bound: it returns the first paragraph with
`start_time ≤ currentTime < end_time`, or none. -/
theorem locateActiveParagraph_contract (t : ℚ) (ps : List ITP.Paragraph)
    (qs : List EAP.Paragraph) :
    ((∀ p ∈ ps, ¬ ∃ s e, p.start_time = some s ∧ p.end_time = some e ∧ s ≤ t ∧ t ≤ e) →
      ITP.findParagraphIndex t ps = -1) ∧
    (∀ (i : Nat) (hi : i < ps.length),
      (∃ s e, ps[i].start_time = some s ∧ ps[i].end_time = some e ∧ s ≤ t ∧ t ≤ e) →
      (∀ (j : Nat) (hj : j < i),
        ¬ ∃ s e, ps[j].start_time = some s ∧ ps[j].end_time = some e ∧ s ≤ t ∧ t ≤ e) →
      ITP.findParagraphIndex t ps = i) ∧
    (∀ (i : Nat) (hi : i < ps.length), ITP.findParagraphIndex t ps = i →
      ∃ s e, ps[i].start_time = some s ∧ ps[i].end_time = some e ∧ s ≤ t ∧ t ≤ e) ∧
    ((∀ q ∈ qs, ¬ (q.start_time ≤ t ∧ t < q.end_time)) →
      EAP.findCurrentParagraph t qs = none) ∧
    (∀ (k : Nat) (hk : k < qs.length),
      qs[k].start_time ≤ t → t < qs[k].end_time →
      (∀ (j : Nat) (hj : j < k), ¬ (qs[j].start_time ≤ t ∧ t < qs[j].end_time)) →
      EAP.findCurrentParagraph t qs = some qs[k]) := by
  refine ⟨?_, ?_, ?_, ?_, ?_⟩
  · intro hmiss
    have hidx : ps.findIdx? (ITP.paragraphActiveAt t) = none := by
      rw [List.findIdx?_eq_none_iff]
      intro p hp
      rw [← Bool.not_eq_true, paragraphActiveAt_iff]
      exact hmiss p hp
    rw [ITP.findParagraphIndex, hidx]
  · intro i hi hhit hmin
    have hidx : ps.findIdx? (ITP.paragraphActiveAt t) = some i := by
      rw [List.findIdx?_eq_some_iff_getElem]
      refine ⟨hi, paragraphActiveAt_iff.mpr hhit, ?_⟩
      intro j hj
      simp only [Bool.not_eq_true]
      rw [← Bool.not_eq_true, paragraphActiveAt_iff]
      exact hmin j hj
    rw [ITP.findParagraphIndex, hidx]
  · intro i hi hfind
    rw [ITP.findParagraphIndex] at hfind
    split at hfind
    next k hidx =>
      have hk : k = i := by exact_mod_cast hfind
      subst hk
      obtain ⟨_, hp, _⟩ := List.findIdx?_eq_some_iff_getElem.mp hidx
      exact paragraphActiveAt_iff.mp hp
    next hidx =>
      exact absurd hfind (by omega)
  · intro hmiss
    rw [EAP.findCurrentParagraph, List.find?_eq_none]
    intro q hq
    simp only [Bool.and_eq_true, decide_eq_true_eq, not_and]
    intro h1 h2
    exact hmiss q hq ⟨h1, h2⟩
  · intro k hk h1 h2 hmin
    rw [EAP.findCurrentParagraph]
    exact find?_first (fun q : EAP.Paragraph =>
      decide (q.start_time ≤ t) && decide (t < q.end_time)) qs k hk
      (by simp only [Bool.and_eq_true, decide_eq_true_eq]; exact ⟨h1, h2⟩)
      (fun j hj => by
        rw [← Bool.not_eq_true]
        simp only [Bool.and_eq_true, decide_eq_true_eq]
        exact hmin j hj)

/-- An `IllustratedTranscriptPlayer` paragraph with timing `[0, 10]`. -/
def itpTimedParagraph : ITP.Paragraph :=
  ⟨"p-2", 0, "Once upon a time", some 0, some 10, some 4, []⟩

/-- An `IllustratedTranscriptPlayer` paragraph lacking timing. -/
def itpUntimedParagraph : ITP.Paragraph :=
  ⟨"p-3", 1, "And then", none, none, some 2, []⟩

/-- Witness for the amended claim C2 at concrete inputs: with an untimed
paragraph first, time 10 (inclusive end) selects the timed paragraph at
index 1, time 99 yields the sentinel, and the `EnhancedAudioPlayer` lookup
at time 5 returns the spanning paragraph. -/
theorem locateActiveParagraph_contract_witness :
    ITP.findParagraphIndex 10 [itpUntimedParagraph, itpTimedParagraph] = 1 ∧
    ITP.findParagraphIndex 99 [itpUntimedParagraph, itpTimedParagraph] = -1 ∧
    EAP.findCurrentParagraph 5 [spanParagraph] = some spanParagraph := by
  refine ⟨?_, ?_, ?_⟩
  · refine (locateActiveParagraph_contract 10 [itpUntimedParagraph, itpTimedParagraph]
      []).2.1 1 (by decide) ⟨0, 10, ?_, ?_, by norm_num, by norm_num⟩ ?_
    · rfl
    · rfl
    · intro j hj
      interval_cases j
      simp [itpUntimedParagraph]
  · refine (locateActiveParagraph_contract 99 [itpUntimedParagraph, itpTimedParagraph]
      []).1 ?_
    intro p hp
    simp only [List.mem_cons, List.not_mem_nil, or_false] at hp
    rcases hp with rfl | rfl
    · simp [itpUntimedParagraph]
    · simp only [itpTimedParagraph, not_exists]
      intro s e
      rintro ⟨hs, he, hst, hte⟩
      rw [Option.some_inj] at hs he
      subst hs
      subst he
      norm_num at hte
  · exact (locateActiveParagraph_contract 5 [] [spanParagraph]).2.2.2.2 0 (by decide)
      (by norm_num [spanParagraph]) (by norm_num [spanParagraph])
      (fun j hj => absurd hj (by omega))

/-- One `timeupdate` tick, fully described: the clock is set, each
highlight index is replaced by the freshly computed one, and each change
notification fires exactly when the fresh index differs from the stored
one. -/
theorem handleTimeUpdate_step (ws : List ITP.Word) (ps : List ITP.Paragraph)
    (st : ITP.PlayerState) (t : ℚ) :
    ITP.handleTimeUpdate ws ps st t =
      ({ st with
          currentTime := t
          currentWordIndex := ITP.findWordIndex t ws
          currentParagraphIndex := ITP.findParagraphIndex t ps },
        decide (ITP.findWordIndex t ws ≠ st.currentWordIndex),
        decide (ITP.findParagraphIndex t ps ≠ st.currentParagraphIndex)) := by
  rw [ITP.handleTimeUpdate]
  by_cases hw : ITP.findWordIndex t ws = st.currentWordIndex <;>
    by_cases hp : ITP.findParagraphIndex t ps = st.currentParagraphIndex <;>
      simp [hw, hp]

/-- Ticks whose computed indices already match the stored ones emit no
notification and leave both highlight indices unchanged. -/
theorem runTimeUpdates_stable (ws : List ITP.Word) (ps : List ITP.Paragraph) :
    ∀ (ts : List ℚ) (st : ITP.PlayerState),
      (∀ t ∈ ts, ITP.findWordIndex t ws = st.currentWordIndex) →
      (∀ t ∈ ts, ITP.findParagraphIndex t ps = st.currentParagraphIndex) →
      (ITP.runTimeUpdates ws ps st ts).2.1 = 0 ∧
      (ITP.runTimeUpdates ws ps st ts).2.2 = 0 ∧
      (ITP.runTimeUpdates ws ps st ts).1.currentWordIndex = st.currentWordIndex ∧
      (ITP.runTimeUpdates ws ps st ts).1.currentParagraphIndex =
        st.currentParagraphIndex := by
  intro ts
  induction ts with
  | nil => intro st _ _; exact ⟨rfl, rfl, rfl, rfl⟩
  | cons t ts ih =>
    intro st hkw hkp
    have hstep : ITP.handleTimeUpdate ws ps st t = ({ st with currentTime := t }, false, false) := by
      rw [handleTimeUpdate_step]
      simp [hkw t (by simp), hkp t (by simp)]
    have hrest := ih { st with currentTime := t }
      (fun u hu => hkw u (by simp [hu])) (fun u hu => hkp u (by simp [hu]))
    rw [ITP.runTimeUpdates, hstep]
    simpa using hrest

/-- Claim C7: on every playback time update the engine emits a change
notification if and only if the freshly computed active index differs from
the previously stored one — for the word and the paragraph highlight of
`IllustratedTranscriptPlayer` and for the paragraph/illustration state of
`EnhancedAudioPlayer` — and a run of updates all mapping to the same
indices emits exactly one notification when the stored index differed
initially, and zero notifications (with the stored indices unchanged) when
it already matched. -/
theorem sync_notify_iff_index_changed :
    (∀ (ws : List ITP.Word) (ps : List ITP.Paragraph) (st : ITP.PlayerState) (t : ℚ),
      ((ITP.handleTimeUpdate ws ps st t).2.1 = true ↔
        ITP.findWordIndex t ws ≠ st.currentWordIndex) ∧
      ((ITP.handleTimeUpdate ws ps st t).2.2 = true ↔
        ITP.findParagraphIndex t ps ≠ st.currentParagraphIndex) ∧
      (ITP.handleTimeUpdate ws ps st t).1.currentWordIndex = ITP.findWordIndex t ws ∧
      (ITP.handleTimeUpdate ws ps st t).1.currentParagraphIndex =
        ITP.findParagraphIndex t ps) ∧
    (∀ (ws : List ITP.Word) (ps : List ITP.Paragraph) (st : ITP.PlayerState) (ts : List ℚ),
      (∀ t ∈ ts, ITP.findWordIndex t ws = st.currentWordIndex) →
      (∀ t ∈ ts, ITP.findParagraphIndex t ps = st.currentParagraphIndex) →
      (ITP.runTimeUpdates ws ps st ts).2.1 = 0 ∧
      (ITP.runTimeUpdates ws ps st ts).2.2 = 0 ∧
      (ITP.runTimeUpdates ws ps st ts).1.currentWordIndex = st.currentWordIndex ∧
      (ITP.runTimeUpdates ws ps st ts).1.currentParagraphIndex =
        st.currentParagraphIndex) ∧
    (∀ (ws : List ITP.Word) (ps : List ITP.Paragraph) (st : ITP.PlayerState)
        (t : ℚ) (ts : List ℚ) (k m : Int),
      (∀ u ∈ t :: ts, ITP.findWordIndex u ws = k) →
      (∀ u ∈ t :: ts, ITP.findParagraphIndex u ps = m) →
      ¬ st.currentWordIndex = k → ¬ st.currentParagraphIndex = m →
      (ITP.runTimeUpdates ws ps st (t :: ts)).2.1 = 1 ∧
      (ITP.runTimeUpdates ws ps st (t :: ts)).2.2 = 1) ∧
    (∀ (qs : List EAP.Paragraph) (st : EAP.ContentState) (t : ℚ),
      ((EAP.updateCurrentContent qs st t).2 = true ↔
        ¬ EAP.findCurrentParagraph t qs = st.currentParagraph) ∧
      ((EAP.updateCurrentContent qs st t).2 = false →
        (EAP.updateCurrentContent qs st t).1 = st)) := by
  refine ⟨?_, ?_, ?_, ?_⟩
  · intro ws ps st t
    rw [handleTimeUpdate_step]
    refine ⟨by simp, by simp, rfl, rfl⟩
  · intro ws ps st ts hkw hkp
    exact runTimeUpdates_stable ws ps ts st hkw hkp
  · intro ws ps st t ts k m hkw hkp hw hp
    have hstep : ITP.handleTimeUpdate ws ps st t =
        ({ st with
            currentTime := t
            currentWordIndex := k
            currentParagraphIndex := m }, true, true) := by
      rw [handleTimeUpdate_step, hkw t (by simp), hkp t (by simp)]
      simp only [Prod.mk.injEq, decide_eq_true_eq]
      exact ⟨trivial, Ne.symm hw, Ne.symm hp⟩
    have hrest := runTimeUpdates_stable ws ps ts
      { st with currentTime := t, currentWordIndex := k, currentParagraphIndex := m }
      (fun u hu => hkw u (by simp [hu])) (fun u hu => hkp u (by simp [hu]))
    obtain ⟨h1, h2, _, _⟩ := hrest
    rw [ITP.runTimeUpdates, hstep]
    simp [h1, h2]
  · intro qs st t
    constructor
    · by_cases h : EAP.findCurrentParagraph t qs = st.currentParagraph <;>
        simp [EAP.updateCurrentContent, h]
    · intro h
      by_cases hne : EAP.findCurrentParagraph t qs = st.currentParagraph
      · simp [EAP.updateCurrentContent, hne]
      · rw [EAP.updateCurrentContent] at h
        simp [hne] at h

/-- Witness for claim C7 at concrete inputs: from the initial state (both
indices `-1`), the ticks `0` and `1` both map to word index 0 and
paragraph index 0, so each highlight updates exactly once over the two
ticks. -/
theorem sync_notify_iff_index_changed_witness :
    (ITP.runTimeUpdates [helloWord, worldWord] [itpTimedParagraph]
      ITP.initialPlayerState [0, 1]).2.1 = 1 ∧
    (ITP.runTimeUpdates [helloWord, worldWord] [itpTimedParagraph]
      ITP.initialPlayerState [0, 1]).2.2 = 1 :=
  sync_notify_iff_index_changed.2.2.1 [helloWord, worldWord] [itpTimedParagraph]
    ITP.initialPlayerState 0 [1] 0 0
    (by
      intro u hu
      simp only [List.mem_cons, List.not_mem_nil, or_false] at hu
      rcases hu with rfl | rfl <;> decide)
    (by
      intro u hu
      simp only [List.mem_cons, List.not_mem_nil, or_false] at hu
      rcases hu with rfl | rfl <;> decide)
    (by decide) (by decide)

/-- A `generated` illustration whose `image_url` is the empty string. -/
def emptyUrlIllustration : EAP.Illustration :=
  ⟨"ill-1", "", "a village at dusk", "realistic", "generated", 2⟩

/-- A paragraph whose only illustration is `emptyUrlIllustration`. -/
def emptyUrlParagraph : EAP.Paragraph :=
  ⟨"p-4", "Story text", 0, 10, 0, "en", 2, [emptyUrlIllustration]⟩

/-- An illustration that is not yet generated. -/
def pendingIllustration : EAP.Illustration :=
  ⟨"ill-2", "https://example.com/a.png", "a river", "realistic", "pending", 1⟩

/-- A generated illustration with a non-empty URL, listed second. -/
def generatedIllustration : EAP.Illustration :=
  ⟨"ill-3", "https://example.com/b.png", "a baobab", "realistic", "generated", 1⟩

/-- A paragraph whose first generated illustration is the second entry. -/
def illustratedParagraph : EAP.Paragraph :=
  ⟨"p-5", "More story text", 0, 10, 0, "en", 3, [pendingIllustration, generatedIllustration]⟩

/-- Claim C8 is false on the code at one input: for the active paragraph
`emptyUrlParagraph`, the first (and only) illustration with status
`generated` exists, yet no illustration is shown — `updateCurrentContent`
stores `activeIllustration?.image_url || null`, and the JavaScript `||`
maps the empty-string `image_url` (falsy) to `null`. -/
theorem illustration_empty_url_cex :
    (EAP.updateCurrentContent [emptyUrlParagraph]
      ⟨none, none⟩ 1).1.currentIllustration = none ∧
    EAP.findCurrentParagraph 1 [emptyUrlParagraph] = some emptyUrlParagraph ∧
    emptyUrlParagraph.illustrations.find? (fun ill => ill.status == "generated") =
      some emptyUrlIllustration := by
  refine ⟨?_, ?_, ?_⟩ <;> decide

/-- Claim C8 (amended): for the active paragraph, the illustration shown
by `EnhancedAudioPlayer` is the first element of its `illustrations`
sequence whose status equals `generated`, provided that element has a
non-empty `image_url`; when the paragraph has no illustration with that
status — or the first one with it has an empty `image_url` — no
illustration is shown (the empty state, never an error). -/
theorem illustration_selection :
    (∀ p : EAP.Paragraph, (∀ ill ∈ p.illustrations, ¬ ill.status = "generated") →
      EAP.illustrationFor (some p) = none) ∧
    (∀ (p : EAP.Paragraph) (k : Nat) (hk : k < p.illustrations.length),
      p.illustrations[k].status = "generated" →
      (∀ (j : Nat) (hj : j < k), ¬ p.illustrations[j].status = "generated") →
      ¬ p.illustrations[k].image_url = "" →
      EAP.illustrationFor (some p) = some p.illustrations[k].image_url) ∧
    (∀ (p : EAP.Paragraph) (k : Nat) (hk : k < p.illustrations.length),
      p.illustrations[k].status = "generated" →
      (∀ (j : Nat) (hj : j < k), ¬ p.illustrations[j].status = "generated") →
      p.illustrations[k].image_url = "" →
      EAP.illustrationFor (some p) = none) ∧
    EAP.illustrationFor none = none ∧
    (∀ (qs : List EAP.Paragraph) (st : EAP.ContentState) (t : ℚ),
      (EAP.updateCurrentContent qs st t).2 = true →
      (EAP.updateCurrentContent qs st t).1.currentIllustration =
        EAP.illustrationFor (EAP.findCurrentParagraph t qs)) := by
  have hfind : ∀ (p : EAP.Paragraph) (k : Nat) (hk : k < p.illustrations.length),
      p.illustrations[k].status = "generated" →
      (∀ (j : Nat) (hj : j < k), ¬ p.illustrations[j].status = "generated") →
      p.illustrations.find? (fun ill => ill.status == "generated") =
        some p.illustrations[k] := by
    intro p k hk hst hmin
    exact find?_first (fun ill : EAP.Illustration => ill.status == "generated")
      p.illustrations k hk (by simpa using hst)
      (fun j hj => by simpa using hmin j hj)
  refine ⟨?_, ?_, ?_, rfl, ?_⟩
  · intro p hnone
    have hf : p.illustrations.find? (fun ill => ill.status == "generated") = none := by
      rw [List.find?_eq_none]
      intro ill hill
      simpa using hnone ill hill
    by_cases hl : 0 < p.illustrations.length <;> simp [EAP.illustrationFor, hl, hf]
  · intro p k hk hst hmin hurl
    have hl : 0 < p.illustrations.length := by omega
    simp [EAP.illustrationFor, hl, hfind p k hk hst hmin, hurl]
  · intro p k hk hst hmin hurl
    have hl : 0 < p.illustrations.length := by omega
    simp [EAP.illustrationFor, hl, hfind p k hk hst hmin, hurl]
  · intro qs st t h
    by_cases hne : EAP.findCurrentParagraph t qs = st.currentParagraph
    · rw [EAP.updateCurrentContent] at h
      simp [hne] at h
    · simp [EAP.updateCurrentContent, hne]

/-- Witness for the amended claim C8 at concrete inputs: the paragraph
whose illustrations are a pending one then a generated one shows the
URL of the generated one, and a paragraph with no generated illustration shows
nothing. -/
theorem illustration_selection_witness :
    EAP.illustrationFor (some illustratedParagraph) =
      some generatedIllustration.image_url ∧
    EAP.illustrationFor (some (⟨"p-6", "Text", 0, 5, 1, "en", 1,
      [pendingIllustration]⟩ : EAP.Paragraph)) = none := by
  constructor
  · exact illustration_selection.2.1 illustratedParagraph 1 (by decide) (by decide)
      (by
        intro j hj
        have hj0 : j = 0 := by omega
        subst hj0
        simp [illustratedParagraph, pendingIllustration]) (by decide)
  · refine illustration_selection.1 _ ?_
    intro ill hill
    simp only [List.mem_cons, List.not_mem_nil, or_false] at hill
    subst hill
    decide

/-- The original-language transcript used in the translation scenarios. -/
def originalTranscript : ITP.TranscriptData :=
  ⟨"hello world", [helloWord, worldWord], 1, none⟩

/-- A French translation carrying no word-level timing. -/
def frTranslation : ITP.Translation :=
  ⟨"fr", "bonjour le monde", none⟩

/-- A Swahili translation carrying word-level timing. -/
def swTranslation : ITP.Translation :=
  ⟨"sw", "habari dunia", some [⟨"habari", 0, 1⟩, ⟨"dunia", 2, 3⟩]⟩

/-- Claim C9 is false on the code at one input: with the French translation
selected and its `words` absent, `getCurrentTranscript` falls back to the
whole original transcript — original text and original word timing — so
the translation text is not what is shown. -/
theorem translation_without_words_cex :
    ITP.getCurrentTranscript originalTranscript [frTranslation] "fr" =
      originalTranscript ∧
    ¬ (ITP.getCurrentTranscript originalTranscript [frTranslation] "fr").text =
      frTranslation.text ∧
    ¬ (ITP.getCurrentTranscript originalTranscript [frTranslation] "fr").words = [] := by
  refine ⟨?_, ?_, ?_⟩ <;> decide

/-- Claim C9 (amended): when the translation found for the selected
language carries no word-level timing, the player falls back to the
original transcript — original text with the original word highlighting —
rather than showing the translation text without highlighting; the
translation text (with its own word timing) is shown only when its
`words` field is present, and an unknown language or the `original`
selection likewise yields the original transcript. -/
theorem getCurrentTranscript_contract (transcript : ITP.TranscriptData)
    (translations : List ITP.Translation) (lang : String)
    (translation : ITP.Translation) :
    (lang = "original" →
      ITP.getCurrentTranscript transcript translations lang = transcript) ∧
    (¬ lang = "original" →
      translations.find? (fun tr => tr.language == lang) = some translation →
      translation.words = none →
      ITP.getCurrentTranscript transcript translations lang = transcript) ∧
    (∀ ws : List ITP.Word, ¬ lang = "original" →
      translations.find? (fun tr => tr.language == lang) = some translation →
      translation.words = some ws →
      ITP.getCurrentTranscript transcript translations lang =
        ⟨translation.text, ws, transcript.confidence, some translation.text⟩) ∧
    (¬ lang = "original" →
      translations.find? (fun tr => tr.language == lang) = none →
      ITP.getCurrentTranscript transcript translations lang = transcript) := by
  refine ⟨?_, ?_, ?_, ?_⟩
  · intro h
    simp [ITP.getCurrentTranscript, h]
  · intro h hf hw
    simp [ITP.getCurrentTranscript, h, hf, hw]
  · intro ws h hf hw
    simp [ITP.getCurrentTranscript, h, hf, hw]
  · intro h hf
    simp [ITP.getCurrentTranscript, h, hf]

/-- Witness for the amended claim C9 at concrete inputs: the French
translation without words falls back to the original transcript; the
Swahili translation with words is shown with its own text and timing. -/
theorem getCurrentTranscript_contract_witness :
    ITP.getCurrentTranscript originalTranscript [frTranslation, swTranslation] "fr" =
      originalTranscript ∧
    ITP.getCurrentTranscript originalTranscript [frTranslation, swTranslation] "sw" =
      ⟨swTranslation.text, [⟨"habari", 0, 1⟩, ⟨"dunia", 2, 3⟩],
        originalTranscript.confidence, some swTranslation.text⟩ := by
  constructor
  · exact (getCurrentTranscript_contract originalTranscript
      [frTranslation, swTranslation] "fr" frTranslation).2.1 (by decide) (by decide) rfl
  · exact (getCurrentTranscript_contract originalTranscript
      [frTranslation, swTranslation] "sw" swTranslation).2.2.1
      [⟨"habari", 0, 1⟩, ⟨"dunia", 2, 3⟩] (by decide) (by decide) rfl

/-- Claim C10: the `ended` handler of `IllustratedTranscriptPlayer` resets
the listed state to its initial values — playback stops, `currentTime`
returns to 0 and both highlight indices return to the sentinel `-1` — so
no word or paragraph (their positions being natural numbers) is
highlighted after playback ends. -/
theorem handleEnded_resets (st : ITP.PlayerState) (i : Nat) :
    (ITP.handleEnded st).isPlaying = false ∧
    (ITP.handleEnded st).currentTime = 0 ∧
    (ITP.handleEnded st).currentWordIndex = -1 ∧
    (ITP.handleEnded st).currentParagraphIndex = -1 ∧
    (ITP.handleEnded st).isPlaying = ITP.initialPlayerState.isPlaying ∧
    (ITP.handleEnded st).currentTime = ITP.initialPlayerState.currentTime ∧
    (ITP.handleEnded st).currentWordIndex = ITP.initialPlayerState.currentWordIndex ∧
    (ITP.handleEnded st).currentParagraphIndex =
      ITP.initialPlayerState.currentParagraphIndex ∧
    ¬ ((i : Int) = (ITP.handleEnded st).currentWordIndex) ∧
    ¬ ((i : Int) = (ITP.handleEnded st).currentParagraphIndex) := by
  refine ⟨rfl, rfl, rfl, rfl, rfl, rfl, rfl, rfl, ?_, ?_⟩
  · show ¬ ((i : Int) = -1)
    omega
  · show ¬ ((i : Int) = -1)
    omega

end Griot
